import Mathlib

/-!
Verification of the ServiceNow MCP server's OAuth + session-transport subsystem.

The definitions below are a shallow embedding of the TypeScript sources:
  * the HTTP transport entry point (session map, eviction, the /mcp handlers),
  * the bearer-auth middleware and route mounting in src/ServiceNow/src/auth.ts,
  * the PKCE token exchange of the embedded authorization server (the exchange
    itself lives in the third-party better-auth library, so it is modelled from
    the specification, together with a concrete SHA-256 / base64url digest).

JavaScript Map objects are embedded as association lists in insertion order
(JS Map iteration order is insertion order); timestamps are integers
(milliseconds since epoch, as produced by Date.now()).
-/

namespace ServiceNowMCP

/-! ### Association-list maps with JS `Map` semantics -/

/-- `Map.get`: first binding of the key, if any. -/
def lookupA {α : Type} (l : List (String × α)) (k : String) : Option α :=
  match l with
  | [] => none
  | (k', v) :: rest => if k' = k then some v else lookupA rest k

/-- `Map.has`. -/
def containsA {α : Type} (l : List (String × α)) (k : String) : Bool :=
  (lookupA l k).isSome

/-- `Map.set`: replace in place if the key exists, else append (JS insertion order). -/
def setA {α : Type} (l : List (String × α)) (k : String) (v : α) : List (String × α) :=
  match l with
  | [] => [(k, v)]
  | (k', v') :: rest => if k' = k then (k, v) :: rest else (k', v') :: setA rest k v

/-- `Map.delete` (removes the key's binding; a no-op when the key is absent). -/
def eraseA {α : Type} : List (String × α) → String → List (String × α)
  | [], _ => []
  | p :: rest, k => if p.1 = k then eraseA rest k else p :: eraseA rest k

/-- Keys are pairwise distinct, as they always are for a JS `Map`. -/
def NodupKeys {α : Type} (l : List (String × α)) : Prop :=
  (l.map Prod.fst).Nodup

/-! ### Session transport manager state (http entry point) -/

/-- `MAX_SESSIONS` (http entry point, line 78). -/
def MAX_SESSIONS : Nat := 1000

/-- `SESSION_TTL_MS = 30 * 60 * 1000` (http entry point, line 79). -/
def SESSION_TTL_MS : Int := 30 * 60 * 1000

/-- The two module-level session maps: `transports` (session id to the
per-session transport instance, represented by a numeric identity) and
`sessionLastAccess` (session id to last-access timestamp). -/
structure SessionState where
  transports : List (String × Nat)
  sessionLastAccess : List (String × Int)
deriving Repr, DecidableEq

/-! ### Session id validation (`isValidSessionId`, lines 85-89)

The source tests the id against the case-insensitive regex
`^[0-9a-f]\x7b8\x7d-[0-9a-f]\x7b4\x7d-4[0-9a-f]\x7b3\x7d-[89ab][0-9a-f]\x7b3\x7d-[0-9a-f]\x7b12\x7d$`,
i.e. the UUID v4 shape.  We embed the regex as a position-wise character-class
pattern. -/

inductive UuidTok where
  | hex
  | dash
  | four
  | variant
deriving Repr, DecidableEq

/-- `[0-9a-f]` under the `/i` flag. -/
def isHexDigit (c : Char) : Bool :=
  ("0123456789abcdefABCDEF".toList).contains c

/-- `[89ab]` under the `/i` flag. -/
def isVariantChar (c : Char) : Bool :=
  ("89abAB".toList).contains c

def tokMatches : UuidTok → Char → Bool
  | UuidTok.hex, c => isHexDigit c
  | UuidTok.dash, c => c = '-'
  | UuidTok.four, c => c = '4'
  | UuidTok.variant, c => isVariantChar c

/-- The anchored UUID-v4 pattern of `UUID_RE`. -/
def UUID_RE : List UuidTok :=
  List.replicate 8 UuidTok.hex ++ [UuidTok.dash] ++
  List.replicate 4 UuidTok.hex ++ [UuidTok.dash] ++
  [UuidTok.four] ++ List.replicate 3 UuidTok.hex ++ [UuidTok.dash] ++
  [UuidTok.variant] ++ List.replicate 3 UuidTok.hex ++ [UuidTok.dash] ++
  List.replicate 12 UuidTok.hex

/-- `isValidSessionId` (lines 87-89): full-string match of `UUID_RE`. -/
def isValidSessionId (s : String) : Bool :=
  s.toList.length = UUID_RE.length && (List.zipWith tokMatches UUID_RE s.toList).all id

/-! ### Stale-session eviction (`evictStaleSessions`, lines 92-105) -/

/-- Loop body of `evictStaleSessions`: iterate the (original) `sessionLastAccess`
entries; each entry older than the cutoff is deleted from both maps (deleting
from `transports` only when present, which `eraseA` subsumes as a no-op). -/
def evictLoop (cutoff : Int) (entries : List (String × Int)) (acc : SessionState) :
    SessionState :=
  match entries with
  | [] => acc
  | (sid, la) :: rest =>
    if la < cutoff then
      evictLoop cutoff rest
        ⟨eraseA acc.transports sid, eraseA acc.sessionLastAccess sid⟩
    else
      evictLoop cutoff rest acc

/-- `evictStaleSessions` (lines 92-105): `cutoff = Date.now() - SESSION_TTL_MS`. -/
def evictStaleSessions (now : Int) (st : SessionState) : SessionState :=
  evictLoop (now - SESSION_TTL_MS) st.sessionLastAccess st

/-! ### The /mcp route handlers -/

/-- One observable operation on the session maps, in the order the source
performs them.  `evictSweep` stands for one synchronous call to
`evictStaleSessions` (whose internal map traffic is accounted to the sweep). -/
inductive MapOp where
  | lookupTransport (sid : String)
  | setTransport (sid : String)
  | eraseTransport (sid : String)
  | setAccess (sid : String)
  | eraseAccess (sid : String)
  | evictSweep
deriving Repr, DecidableEq

/-- An HTTP response, reduced to status code and body message. -/
structure McpResponse where
  status : Nat
  message : String
deriving Repr, DecidableEq

/-- Result of running one route handler: the response, the session maps
afterwards, and the trace of map operations performed. -/
structure HandlerResult where
  response : McpResponse
  state : SessionState
  trace : List MapOp
deriving Repr, DecidableEq

/-- The new-transport branch (lines 173-197): `createServer()` and
`server.connect(transport)` run before `transport.handleRequest`, so the
`onsessioninitialized` callback (which inserts into both maps) can only have
fired on the success path.  `connectOk = false` embeds a throw from
construction or connection, caught by the handler's catch block (lines
198-207), which answers 500 with the maps untouched. -/
def connectAndInit (st : SessionState) (now : Int) (freshSid : String) (tid : Nat)
    (connectOk : Bool) (tr : List MapOp) : HandlerResult :=
  if connectOk then
    ⟨⟨200, "initialized"⟩,
     ⟨setA st.transports freshSid tid, setA st.sessionLastAccess freshSid now⟩,
     tr ++ [MapOp.setTransport freshSid, MapOp.setAccess freshSid]⟩
  else
    ⟨⟨500, "Internal server error"⟩, st, tr⟩

/-- The no-session / unknown-session continuation of POST /mcp (lines 150-197):
reject non-initialize bodies, enforce the session cap with a single synchronous
eviction sweep, then construct the per-session transport and server. -/
def newSessionFlow (st : SessionState) (bodyIsInit : Bool) (now : Int)
    (freshSid : String) (tid : Nat) (connectOk : Bool) (tr : List MapOp) :
    HandlerResult :=
  if bodyIsInit = false then
    ⟨⟨400, "Bad Request: No valid session ID provided"⟩, st, tr⟩
  else if MAX_SESSIONS ≤ st.transports.length then
    let st1 := evictStaleSessions now st
    if MAX_SESSIONS ≤ st1.transports.length then
      ⟨⟨503, "Server busy: too many active sessions"⟩, st1, tr ++ [MapOp.evictSweep]⟩
    else
      connectAndInit st1 now freshSid tid connectOk (tr ++ [MapOp.evictSweep])
  else
    connectAndInit st now freshSid tid connectOk tr

/-- POST /mcp (lines 122-212).  Inputs beyond the request: `now` is
`Date.now()`, `freshSid` the id `randomUUID()` will produce, `tid` the identity
of the transport that would be constructed, `connectOk` whether construction
and connection succeed.  A delegated request's body is produced by the
session's transport (external SDK code); we record status 200. -/
def handlePostMcp (st : SessionState) (sessionId : Option String) (bodyIsInit : Bool)
    (now : Int) (freshSid : String) (tid : Nat) (connectOk : Bool) : HandlerResult :=
  match sessionId with
  | some sid =>
    if isValidSessionId sid = false then
      ⟨⟨400, "Bad Request: Invalid session ID format"⟩, st, []⟩
    else if containsA st.transports sid then
      ⟨⟨200, "delegated"⟩,
       { st with sessionLastAccess := setA st.sessionLastAccess sid now },
       [MapOp.lookupTransport sid, MapOp.setAccess sid, MapOp.lookupTransport sid]⟩
    else
      newSessionFlow st bodyIsInit now freshSid tid connectOk [MapOp.lookupTransport sid]
  | none => newSessionFlow st bodyIsInit now freshSid tid connectOk []

/-- GET /mcp (lines 215-225): guard, bump last access, delegate to the
session's transport. -/
def handleGetMcp (st : SessionState) (sessionId : Option String) (now : Int) :
    HandlerResult :=
  match sessionId with
  | none => ⟨⟨400, "Invalid or missing session ID"⟩, st, []⟩
  | some sid =>
    if isValidSessionId sid = false then
      ⟨⟨400, "Invalid or missing session ID"⟩, st, []⟩
    else if containsA st.transports sid = false then
      ⟨⟨400, "Invalid or missing session ID"⟩, st, [MapOp.lookupTransport sid]⟩
    else
      ⟨⟨200, "delegated"⟩,
       { st with sessionLastAccess := setA st.sessionLastAccess sid now },
       [MapOp.lookupTransport sid, MapOp.setAccess sid, MapOp.lookupTransport sid]⟩

/-- The transport `onclose` callback (lines 183-190): when the transport has a
session id, delete it from both maps. -/
def oncloseCallback (st : SessionState) (sid : Option String) : SessionState :=
  match sid with
  | some s => ⟨eraseA st.transports s, eraseA st.sessionLastAccess s⟩
  | none => st

/-- DELETE /mcp (lines 228-238): guard, drop the last-access entry, then
delegate to the transport, whose termination handling closes it and fires
`onclose` (which deletes the session from both maps). -/
def handleDeleteMcp (st : SessionState) (sessionId : Option String) : HandlerResult :=
  match sessionId with
  | none => ⟨⟨400, "Invalid or missing session ID"⟩, st, []⟩
  | some sid =>
    if isValidSessionId sid = false then
      ⟨⟨400, "Invalid or missing session ID"⟩, st, []⟩
    else if containsA st.transports sid = false then
      ⟨⟨400, "Invalid or missing session ID"⟩, st, [MapOp.lookupTransport sid]⟩
    else
      let st1 : SessionState := { st with sessionLastAccess := eraseA st.sessionLastAccess sid }
      let st2 := oncloseCallback st1 (some sid)
      ⟨⟨200, "terminated"⟩, st2,
       [MapOp.lookupTransport sid, MapOp.eraseAccess sid, MapOp.lookupTransport sid,
        MapOp.eraseTransport sid, MapOp.eraseAccess sid]⟩

/-- `gracefulShutdown` (lines 257-267): close every live transport and delete
its session from both maps. -/
def gracefulShutdown (st : SessionState) : SessionState :=
  st.transports.foldl
    (fun acc p => ⟨eraseA acc.transports p.1, eraseA acc.sessionLastAccess p.1⟩) st

/-- The two session maps hold exactly the same set of session ids. -/
def sameKeys (st : SessionState) : Prop :=
  ∀ k, containsA st.transports k = containsA st.sessionLastAccess k

/-- A POST /mcp request that reaches the new-session path with an initialize
body: either no session-id header, or a well-formed id unknown to the
transports map. -/
def isNewSessionInit (st : SessionState) (sessionId : Option String) : Prop :=
  sessionId = none ∨
  ∃ s, sessionId = some s ∧ isValidSessionId s = true ∧ containsA st.transports s = false

/-! ### Bearer auth middleware (src/ServiceNow/src/auth.ts, lines 346-401) -/

/-- Resolved auth context returned by `verifyAccessToken` (lines 322-344). -/
structure AuthInfo where
  token : String
  clientId : String
  scopes : List String
  expiresAt : Int
deriving Repr, DecidableEq

/-- An HTTP response of the middleware, reduced to the parts the claims are
about: status, optional WWW-Authenticate header, OAuth error code and
description of the JSON body. -/
structure AuthHttpResponse where
  status : Nat
  wwwAuthenticate : Option String
  errorCode : String
  errorDescription : String
deriving Repr, DecidableEq

/-- `buildWwwAuth` (lines 358-367). -/
def buildWwwAuth (requiredScopes : List String) (resourceMetadataUrl : Option String)
    (code : String) (message : String) : String :=
  let header := "Bearer error=\"" ++ code ++ "\", error_description=\"" ++ message ++ "\""
  let header :=
    if 0 < requiredScopes.length then
      header ++ ", scope=\"" ++ String.intercalate " " requiredScopes ++ "\""
    else header
  match resourceMetadataUrl with
  | some u => header ++ ", " ++ "resource_metadata=\"" ++ u ++ "\""
  | none => header

/-- `authHeader?.startsWith('Bearer ')`, embedded at the character level. -/
def startsWithBearer (h : String) : Bool :=
  h.toList.take 7 == "Bearer ".toList

/-- `authHeader.slice(7)`. -/
def slice7 (h : String) : String :=
  String.mk (h.toList.drop 7)

/-- Outcome of the middleware: the request is either halted with a response or
passed to the next handler. -/
inductive MwOutcome where
  | halted (resp : AuthHttpResponse)
  | passed
deriving Repr, DecidableEq

/-- The middleware produced by `requireBearerAuth` (lines 369-400).
`verify` embeds `verifyAccessToken`, with `none` for a throw (whose message,
thrown at line 335, is the string used in the 401); `appLocalsAuth` is the
current value of the app-wide `req.app.locals.auth` slot, which line 393
overwrites on success.  Returns the outcome and the slot afterwards. -/
def requireBearerAuthStep (requiredScopes : List String)
    (resourceMetadataUrl : Option String) (verify : String → Option AuthInfo)
    (authHeader : Option String) (appLocalsAuth : Option AuthInfo) :
    MwOutcome × Option AuthInfo :=
  let challenge401 :=
    MwOutcome.halted
      ⟨401, some (buildWwwAuth requiredScopes resourceMetadataUrl "invalid_token"
                    "Missing Authorization header"),
       "invalid_token", "Missing Authorization header"⟩
  match authHeader with
  | none => (challenge401, appLocalsAuth)
  | some h =>
    if startsWithBearer h = false then
      (challenge401, appLocalsAuth)
    else
      match verify (slice7 h) with
      | none =>
        (MwOutcome.halted
          ⟨401, some (buildWwwAuth requiredScopes resourceMetadataUrl "invalid_token"
                        "Invalid token"),
           "invalid_token", "Invalid token"⟩, appLocalsAuth)
      | some info =>
        if 0 < requiredScopes.length &&
            !(requiredScopes.all (fun s => info.scopes.contains s)) then
          (MwOutcome.halted
            ⟨403, some (buildWwwAuth requiredScopes resourceMetadataUrl
                          "insufficient_scope"
                          ("Required: " ++ String.intercalate ", " requiredScopes)),
             "insufficient_scope",
             "Required scopes: " ++ String.intercalate ", " requiredScopes⟩,
           appLocalsAuth)
        else
          (MwOutcome.passed, some info)

/-- The middleware instance mounted on the /mcp routes (http entry point,
lines 112-114): default (empty) required scopes, resource-metadata URL set to
the derived protected-resource-metadata path. -/
def authMiddlewareStep (serverUrl : String) (verify : String → Option AuthInfo)
    (authHeader : Option String) (appLocalsAuth : Option AuthInfo) :
    MwOutcome × Option AuthInfo :=
  requireBearerAuthStep []
    (some (serverUrl ++ "/.well-known/oauth-protected-resource/mcp"))
    verify authHeader appLocalsAuth

/-! ### Route mounting (`mountAuthRoutes`, auth.ts lines 238-318)

The protected-resource-metadata handler `prmHandler` is constructed once
(line 273) and mounted at both well-known paths (lines 274-277).  We embed the
route table with numeric handler identities; a handler's response is a function
of its identity and the server configuration. -/

structure RouteEntry where
  method : String
  path : String
  handlerId : Nat
deriving Repr, DecidableEq

def AUTH_API_HANDLER : Nat := 0
def DISCOVERY_HANDLER : Nat := 1
def PRM_HANDLER : Nat := 2
def SIGNIN_HANDLER : Nat := 3
def CORS_HANDLER : Nat := 4

/-- The registrations performed by `mountAuthRoutes`, in source order. -/
def authRoutes : List RouteEntry :=
  [⟨"ALL", "/api/auth/*", AUTH_API_HANDLER⟩,
   ⟨"OPTIONS", "/.well-known/oauth-authorization-server", CORS_HANDLER⟩,
   ⟨"GET", "/.well-known/oauth-authorization-server", DISCOVERY_HANDLER⟩,
   ⟨"OPTIONS", "/.well-known/oauth-protected-resource/mcp", CORS_HANDLER⟩,
   ⟨"GET", "/.well-known/oauth-protected-resource/mcp", PRM_HANDLER⟩,
   ⟨"OPTIONS", "/.well-known/oauth-protected-resource", CORS_HANDLER⟩,
   ⟨"GET", "/.well-known/oauth-protected-resource", PRM_HANDLER⟩,
   ⟨"GET", "/sign-in", SIGNIN_HANDLER⟩]

/-- First matching route, Express-style. -/
def findRoute (routes : List RouteEntry) (method path : String) : Option Nat :=
  (routes.find? (fun r => r.method == method && r.path == path)).map
    (fun r => r.handlerId)

/-- Serve a GET over the mounted auth routes: the matched handler, applied to
the server configuration, produces the response body.  `handlers` assigns each
handler identity its (deterministic) body function. -/
def serveAuthGet (handlers : Nat → String → String) (config : String)
    (path : String) : Option String :=
  (findRoute authRoutes "GET" path).map (fun h => handlers h config)

/-! ### SHA-256 and base64url (FIPS 180-4, RFC 4648 section 5)

The PKCE S256 digest: base64url, without padding, of the SHA-256 of the ASCII
`code_verifier`.  Bytes and 32-bit words are natural numbers with explicit
reduction mod 2^32.  (Validated against the FIPS 180-4 and RFC 7636 test
vectors.) -/

def w32 (n : Nat) : Nat := n % 4294967296

def rotr32 (x n : Nat) : Nat :=
  w32 ((x >>> n) ||| (x <<< (32 - n)))

def shr32 (x n : Nat) : Nat := x >>> n

def xor3 (a b c : Nat) : Nat := (a ^^^ b) ^^^ c

def bigSigma0 (x : Nat) : Nat := xor3 (rotr32 x 2) (rotr32 x 13) (rotr32 x 22)
def bigSigma1 (x : Nat) : Nat := xor3 (rotr32 x 6) (rotr32 x 11) (rotr32 x 25)
def smallSigma0 (x : Nat) : Nat := xor3 (rotr32 x 7) (rotr32 x 18) (shr32 x 3)
def smallSigma1 (x : Nat) : Nat := xor3 (rotr32 x 17) (rotr32 x 19) (shr32 x 10)

def chFn (x y z : Nat) : Nat := (x &&& y) ^^^ ((x ^^^ 4294967295) &&& z)
def majFn (x y z : Nat) : Nat := xor3 (x &&& y) (x &&& z) (y &&& z)

/-- The 64 round constants of FIPS 180-4 section 4.2.2 (decimal). -/
def K256 : List Nat :=
  [1116352408, 1899447441, 3049323471, 3921009573, 961987163, 1508970993,
   2453635748, 2870763221, 3624381080, 310598401, 607225278, 1426881987,
   1925078388, 2162078206, 2614888103, 3248222580, 3835390401, 4022224774,
   264347078, 604807628, 770255983, 1249150122, 1555081692, 1996064986,
   2554220882, 2821834349, 2952996808, 3210313671, 3336571891, 3584528711,
   113926993, 338241895, 666307205, 773529912, 1294757372, 1396182291,
   1695183700, 1986661051, 2177026350, 2456956037, 2730485921, 2820302411,
   3259730800, 3345764771, 3516065817, 3600352804, 4094571909, 275423344,
   430227734, 506948616, 659060556, 883997877, 958139571, 1322822218,
   1537002063, 1747873779, 1955562222, 2024104815, 2227730452, 2361852424,
   2428436474, 2756734187, 3204031479, 3329325298]

/-- The initial hash value of FIPS 180-4 section 5.3.3 (decimal). -/
def H256 : List Nat :=
  [1779033703, 3144134277, 1013904242, 2773480762,
   1359893119, 2600822924, 528734635, 1541459225]

/-- Big-endian byte expansion, `k` bytes. -/
def beBytes (k : Nat) (n : Nat) : List Nat :=
  match k with
  | 0 => []
  | k + 1 => beBytes k (n / 256) ++ [n % 256]

/-- FIPS 180-4 padding: 0x80, zeros to 56 mod 64, 64-bit big-endian bit length. -/
def sha256Pad (msg : List Nat) : List Nat :=
  let len := msg.length
  let z := (120 - ((len + 1) % 64)) % 64
  msg ++ [128] ++ List.replicate z 0 ++ beBytes 8 (len * 8)

def bytesToWords : List Nat → List Nat
  | a :: b :: c :: d :: rest => (((a * 256 + b) * 256 + c) * 256 + d) :: bytesToWords rest
  | _ => []

/-- Extend the message schedule by one word. -/
def scheduleStep (w : List Nat) : List Nat :=
  let t := w.length
  w ++ [w32 (smallSigma1 (w.getD (t - 2) 0) + w.getD (t - 7) 0 +
             smallSigma0 (w.getD (t - 15) 0) + w.getD (t - 16) 0)]

/-- The eight working registers of the compression function. -/
structure Regs where
  a : Nat
  b : Nat
  c : Nat
  d : Nat
  e : Nat
  f : Nat
  g : Nat
  h : Nat

def compressStep (r : Regs) (kw : Nat × Nat) : Regs :=
  let t1 := w32 (r.h + bigSigma1 r.e + chFn r.e r.f r.g + kw.1 + kw.2)
  let t2 := w32 (bigSigma0 r.a + majFn r.a r.b r.c)
  ⟨w32 (t1 + t2), r.a, r.b, r.c, w32 (r.d + t1), r.e, r.f, r.g⟩

def compressBlock (h : List Nat) (block : List Nat) : List Nat :=
  let w := Nat.repeat scheduleStep 48 (bytesToWords block)
  let i : Regs := ⟨h.getD 0 0, h.getD 1 0, h.getD 2 0, h.getD 3 0,
                   h.getD 4 0, h.getD 5 0, h.getD 6 0, h.getD 7 0⟩
  let r := (K256.zip w).foldl compressStep i
  [w32 (h.getD 0 0 + r.a), w32 (h.getD 1 0 + r.b), w32 (h.getD 2 0 + r.c),
   w32 (h.getD 3 0 + r.d), w32 (h.getD 4 0 + r.e), w32 (h.getD 5 0 + r.f),
   w32 (h.getD 6 0 + r.g), w32 (h.getD 7 0 + r.h)]

def chunksAux : Nat → List Nat → List (List Nat)
  | 0, _ => []
  | _, [] => []
  | fuel + 1, l => l.take 64 :: chunksAux fuel (l.drop 64)

/-- Split into 64-byte blocks (the padded message length is a multiple of 64,
so a fuel of the list length suffices). -/
def chunk64 (l : List Nat) : List (List Nat) := chunksAux l.length l

def sha256Bytes (msg : List Nat) : List Nat :=
  let blocks := chunk64 (sha256Pad msg)
  let hfin := blocks.foldl compressBlock H256
  hfin.foldr (fun w acc => beBytes 4 w ++ acc) []

def B64URL_ALPHABET : List Char :=
  "ABCDEFGHIJKLMNOPQRSTUVWXYZabcdefghijklmnopqrstuvwxyz0123456789-_".toList

def b64Char (n : Nat) : Char := B64URL_ALPHABET.getD n 'A'

/-- base64url without padding (RFC 4648 section 5, as used by RFC 7636). -/
def base64urlEncode : List Nat → List Char
  | [] => []
  | [a] => [b64Char (a / 4), b64Char (a % 4 * 16)]
  | [a, b] => [b64Char (a / 4), b64Char (a % 4 * 16 + b / 16), b64Char (b % 16 * 4)]
  | a :: b :: c :: rest =>
    b64Char (a / 4) :: b64Char (a % 4 * 16 + b / 16) ::
    b64Char (b % 16 * 4 + c / 64) :: b64Char (c % 64) :: base64urlEncode rest

def asciiBytes (s : String) : List Nat := s.toList.map Char.toNat

/-- The PKCE S256 transform: BASE64URL(SHA256(ASCII(code_verifier))). -/
def sha256Base64Url (s : String) : String :=
  String.mk (base64urlEncode (sha256Bytes (asciiBytes s)))

/-! ### PKCE token exchange (Authorization & Token Engine)

The exchange endpoint is provided by the better-auth MCP plugin configured in
`initAuth` (src/ServiceNow/src/auth.ts, lines 173-208); the plugin itself is a
third-party dependency whose implementation is not part of this repository. -/

/-- A stored authorization code, per the `oauthAuthorizationCode` table
(auth.ts lines 135-147) together with the consumed mark of spec section 4.3. -/
structure AuthorizationCodeRec where
  code : String
  clientId : String
  redirectURI : String
  codeChallenge : String
  codeChallengeMethod : String
  expiresAt : Int
  consumed : Bool
deriving Repr, DecidableEq

/-- A token-exchange request body (`grant_type=authorization_code`). -/
structure TokenRequest where
  grantType : String
  code : String
  redirectUri : String
  clientId : String
  codeVerifier : String
deriving Repr, DecidableEq

/-- The minted access/refresh token pair. -/
structure TokenPair where
  accessToken : String
  refreshToken : String
deriving Repr, DecidableEq

def markConsumed (store : List AuthorizationCodeRec) (c : String) :
    List AuthorizationCodeRec :=
  store.map (fun r => if r.code = c then { r with consumed := true } else r)

/-- Modelled from the spec: the token-exchange transition of the Authorization
and Token Engine (spec section 4.3), implemented by the better-auth MCP plugin
(not part of this repository).  The engine looks up the code, verifies it is
unexpired and unconsumed, verifies `redirect_uri` and `client_id` match the
values recorded at issuance, recomputes the PKCE S256 digest from
`code_verifier` and compares it against the stored challenge, marks the code
consumed and mints an access/refresh token pair; every mismatch yields the
standard OAuth error code without distinguishing the failed check.  `mint`
abstracts the random token generation. -/
def tokenExchange (store : List AuthorizationCodeRec) (req : TokenRequest)
    (now : Int) (mint : String → TokenPair) :
    Except String (TokenPair × List AuthorizationCodeRec) :=
  if req.grantType ≠ "authorization_code" then Except.error "unsupported_grant_type"
  else
    match store.find? (fun r => r.code == req.code) with
    | none => Except.error "invalid_grant"
    | some r =>
      if r.expiresAt ≤ now then Except.error "invalid_grant"
      else if r.consumed then Except.error "invalid_grant"
      else if r.redirectURI ≠ req.redirectUri then Except.error "invalid_grant"
      else if r.clientId ≠ req.clientId then Except.error "invalid_grant"
      else if sha256Base64Url req.codeVerifier ≠ r.codeChallenge then
        Except.error "invalid_grant"
      else Except.ok (mint req.code, markConsumed store req.code)

/-- Whether an exchange succeeded. -/
def exchangeOk {ε α : Type} : Except ε α → Bool
  | Except.ok _ => true
  | Except.error _ => false

set_option maxRecDepth 10000 in
/-- Validation of the digest model against the RFC 7636 appendix B test
vector. -/
theorem sha256Base64Url_rfc7636_vector :
    sha256Base64Url "dBjftJeZ4CVP-mB92K27uhbUJU1p1r_wW1gFWFOEjXk" =
      "E9Melhoa2OwvFrEMTJguCHaoeK1t8URWbuGJSstw-cM" := by decide

/-! ### Lemmas about the association-list map operations -/

theorem lookupA_eraseA_self {α : Type} (l : List (String × α)) (k : String) :
    lookupA (eraseA l k) k = none := by
  induction l with
  | nil => rfl
  | cons p rest ih =>
    by_cases h : p.1 = k
    · simp [eraseA, h, ih]
    · simp [eraseA, h, lookupA, ih]

theorem lookupA_eraseA_ne {α : Type} (l : List (String × α)) (k k' : String)
    (h : k ≠ k') : lookupA (eraseA l k') k = lookupA l k := by
  induction l with
  | nil => rfl
  | cons p rest ih =>
    show lookupA (if p.1 = k' then eraseA rest k' else p :: eraseA rest k') k = _
    by_cases hp : p.1 = k'
    · have hpk : p.1 ≠ k := fun hk => h (hk ▸ hp)
      rw [if_pos hp, ih]
      show _ = if p.1 = k then some p.2 else lookupA rest k
      rw [if_neg hpk]
    · rw [if_neg hp]
      show (if p.1 = k then some p.2 else lookupA (eraseA rest k') k) = _
      by_cases hk : p.1 = k
      · rw [if_pos hk]
        show _ = if p.1 = k then some p.2 else lookupA rest k
        rw [if_pos hk]
      · rw [if_neg hk, ih]
        show _ = if p.1 = k then some p.2 else lookupA rest k
        rw [if_neg hk]

theorem containsA_eraseA {α : Type} (l : List (String × α)) (k k' : String) :
    containsA (eraseA l k') k = if k = k' then false else containsA l k := by
  by_cases h : k = k'
  · rw [if_pos h, containsA, h, lookupA_eraseA_self]
    rfl
  · rw [if_neg h, containsA, lookupA_eraseA_ne l k k' h]
    rfl

theorem lookupA_setA_self {α : Type} (l : List (String × α)) (k : String) (v : α) :
    lookupA (setA l k v) k = some v := by
  induction l with
  | nil => simp [setA, lookupA]
  | cons p rest ih =>
    show lookupA (if p.1 = k then (k, v) :: rest else p :: setA rest k v) k = _
    by_cases h : p.1 = k
    · rw [if_pos h]
      show (if k = k then some v else lookupA rest k) = _
      rw [if_pos rfl]
    · rw [if_neg h]
      show (if p.1 = k then some p.2 else lookupA (setA rest k v) k) = _
      rw [if_neg h, ih]

theorem lookupA_setA_ne {α : Type} (l : List (String × α)) (k k' : String) (v : α)
    (h : k' ≠ k) : lookupA (setA l k v) k' = lookupA l k' := by
  induction l with
  | nil =>
    show (if k = k' then some v else lookupA [] k') = _
    rw [if_neg (Ne.symm h)]
  | cons p rest ih =>
    show lookupA (if p.1 = k then (k, v) :: rest else p :: setA rest k v) k' = _
    by_cases hp : p.1 = k
    · rw [if_pos hp]
      show (if k = k' then some v else lookupA rest k') = _
      rw [if_neg (Ne.symm h)]
      show _ = if p.1 = k' then some p.2 else lookupA rest k'
      rw [if_neg (hp ▸ Ne.symm h)]
    · rw [if_neg hp]
      show (if p.1 = k' then some p.2 else lookupA (setA rest k v) k') = _
      by_cases hk : p.1 = k'
      · rw [if_pos hk]
        show _ = if p.1 = k' then some p.2 else lookupA rest k'
        rw [if_pos hk]
      · rw [if_neg hk, ih]
        show _ = if p.1 = k' then some p.2 else lookupA rest k'
        rw [if_neg hk]

theorem containsA_setA {α : Type} (l : List (String × α)) (k k' : String) (v : α) :
    containsA (setA l k v) k' = if k' = k then true else containsA l k' := by
  by_cases h : k' = k
  · rw [if_pos h, containsA, h, lookupA_setA_self]
    rfl
  · rw [if_neg h, containsA, lookupA_setA_ne l k k' v h]
    rfl

theorem setA_length_le {α : Type} (l : List (String × α)) (k : String) (v : α) :
    (setA l k v).length ≤ l.length + 1 := by
  induction l with
  | nil => simp [setA]
  | cons p rest ih =>
    by_cases h : p.1 = k
    · simp [setA, h]
    · simp only [setA, h, if_false, List.length_cons]
      omega

theorem eraseA_length_le {α : Type} (l : List (String × α)) (k : String) :
    (eraseA l k).length ≤ l.length := by
  induction l with
  | nil => simp [eraseA]
  | cons p rest ih =>
    by_cases h : p.1 = k
    · simp only [eraseA, h, if_true, List.length_cons]
      omega
    · simp only [eraseA, h, if_false, List.length_cons]
      omega

theorem mem_of_lookupA {α : Type} (l : List (String × α)) (k : String) (v : α)
    (h : lookupA l k = some v) : (k, v) ∈ l := by
  induction l with
  | nil => simp [lookupA] at h
  | cons p rest ih =>
    by_cases hp : p.1 = k
    · simp only [lookupA, hp, if_true, Option.some.injEq] at h
      have hkv : (k, v) = p := by
        rw [← hp, ← h]
      rw [hkv]
      exact List.mem_cons_self p rest
    · simp only [lookupA, hp, if_false] at h
      exact List.mem_cons_of_mem p (ih h)

theorem lookupA_of_mem_nodup {α : Type} (l : List (String × α)) (k : String) (v : α)
    (hnd : NodupKeys l) (hm : (k, v) ∈ l) : lookupA l k = some v := by
  induction l with
  | nil => simp at hm
  | cons p rest ih =>
    rcases List.mem_cons.mp hm with hm | hm
    · simp [lookupA, ← hm]
    · have hk : k ∈ rest.map Prod.fst :=
        List.mem_map.mpr ⟨(k, v), hm, rfl⟩
      have hnd' : NodupKeys rest := (List.nodup_cons.mp hnd).2
      by_cases hp : p.1 = k
      · exfalso
        have := (List.nodup_cons.mp hnd).1
        rw [hp] at this
        exact this hk
      · simp [lookupA, hp, ih hnd' hm]

/-! ### Lemmas about the eviction loop -/

theorem evictLoop_not_contains_transports (c : Int) (es : List (String × Int))
    (acc : SessionState) (k : String)
    (h : containsA acc.transports k = false) :
    containsA (evictLoop c es acc).transports k = false := by
  induction es generalizing acc with
  | nil => exact h
  | cons p rest ih =>
    simp only [evictLoop]
    by_cases hc : p.2 < c
    · simp only [hc, if_true]
      exact ih _ (by simp [containsA_eraseA, h])
    · simp only [hc, if_false]
      exact ih _ h

theorem evictLoop_not_contains_access (c : Int) (es : List (String × Int))
    (acc : SessionState) (k : String)
    (h : containsA acc.sessionLastAccess k = false) :
    containsA (evictLoop c es acc).sessionLastAccess k = false := by
  induction es generalizing acc with
  | nil => exact h
  | cons p rest ih =>
    simp only [evictLoop]
    by_cases hc : p.2 < c
    · simp only [hc, if_true]
      exact ih _ (by simp [containsA_eraseA, h])
    · simp only [hc, if_false]
      exact ih _ h

theorem evictLoop_stale_removed (c : Int) (es : List (String × Int))
    (acc : SessionState) (sid : String) (la : Int)
    (hm : (sid, la) ∈ es) (hla : la < c) :
    containsA (evictLoop c es acc).transports sid = false ∧
    containsA (evictLoop c es acc).sessionLastAccess sid = false := by
  induction es generalizing acc with
  | nil => simp at hm
  | cons p rest ih =>
    rcases List.mem_cons.mp hm with hm | hm
    · have hp2 : p.2 < c := by rw [← hm]; exact hla
      have hp1 : p.1 = sid := by rw [← hm]
      simp only [evictLoop, hp2, if_true]
      constructor
      · exact evictLoop_not_contains_transports _ _ _ _ (by simp [containsA_eraseA, hp1])
      · exact evictLoop_not_contains_access _ _ _ _ (by simp [containsA_eraseA, hp1])
    · simp only [evictLoop]
      by_cases hc : p.2 < c
      · simp only [hc, if_true]
        exact ih _ hm
      · simp only [hc, if_false]
        exact ih _ hm

theorem evictLoop_fresh_retained (c : Int) (es : List (String × Int))
    (acc : SessionState) (sid : String)
    (h : ∀ l, (sid, l) ∈ es → ¬ l < c) :
    lookupA (evictLoop c es acc).sessionLastAccess sid =
      lookupA acc.sessionLastAccess sid ∧
    containsA (evictLoop c es acc).transports sid = containsA acc.transports sid := by
  induction es generalizing acc with
  | nil => exact ⟨rfl, rfl⟩
  | cons p rest ih =>
    have hrest : ∀ l, (sid, l) ∈ rest → ¬ l < c := fun l hm =>
      h l (List.mem_cons_of_mem p hm)
    simp only [evictLoop]
    by_cases hc : p.2 < c
    · have hne : sid ≠ p.1 := by
        intro he
        exact h p.2 (by rw [he]; exact List.mem_cons_self p rest) hc
      simp only [hc, if_true]
      have := ih
        ⟨eraseA acc.transports p.1, eraseA acc.sessionLastAccess p.1⟩ hrest
      rw [this.1, this.2]
      constructor
      · exact lookupA_eraseA_ne _ _ _ hne
      · simp [containsA_eraseA, hne]
    · simp only [hc, if_false]
      exact ih acc hrest

theorem evictLoop_transports_length_le (c : Int) (es : List (String × Int))
    (acc : SessionState) :
    (evictLoop c es acc).transports.length ≤ acc.transports.length := by
  induction es generalizing acc with
  | nil => exact Nat.le_refl _
  | cons p rest ih =>
    simp only [evictLoop]
    by_cases hc : p.2 < c
    · simp only [hc, if_true]
      exact Nat.le_trans (ih _) (eraseA_length_le _ _)
    · simp only [hc, if_false]
      exact ih _

theorem evictStaleSessions_transports_length_le (now : Int) (st : SessionState) :
    (evictStaleSessions now st).transports.length ≤ st.transports.length :=
  evictLoop_transports_length_le _ _ _

theorem evictStaleSessions_not_contains_transports (now : Int) (st : SessionState)
    (k : String) (h : containsA st.transports k = false) :
    containsA (evictStaleSessions now st).transports k = false :=
  evictLoop_not_contains_transports _ _ _ _ h

theorem evictStaleSessions_not_contains_access (now : Int) (st : SessionState)
    (k : String) (h : containsA st.sessionLastAccess k = false) :
    containsA (evictStaleSessions now st).sessionLastAccess k = false :=
  evictLoop_not_contains_access _ _ _ _ h

/-! ### Lemmas about key-set synchrony -/

theorem sameKeys_erase_both (st : SessionState) (k : String) (h : sameKeys st) :
    sameKeys ⟨eraseA st.transports k, eraseA st.sessionLastAccess k⟩ := by
  intro k'
  simp only [containsA_eraseA]
  by_cases hk : k' = k
  · simp [hk]
  · simp [hk, h k']

theorem sameKeys_evictLoop (c : Int) (es : List (String × Int)) (acc : SessionState)
    (h : sameKeys acc) : sameKeys (evictLoop c es acc) := by
  induction es generalizing acc with
  | nil => exact h
  | cons p rest ih =>
    simp only [evictLoop]
    by_cases hc : p.2 < c
    · simp only [hc, if_true]
      exact ih _ (sameKeys_erase_both acc p.1 h)
    · simp only [hc, if_false]
      exact ih _ h

theorem sameKeys_evictStaleSessions (now : Int) (st : SessionState)
    (h : sameKeys st) : sameKeys (evictStaleSessions now st) :=
  sameKeys_evictLoop _ _ _ h

theorem sameKeys_set_both (st : SessionState) (k : String) (tid : Nat) (now : Int)
    (h : sameKeys st) :
    sameKeys ⟨setA st.transports k tid, setA st.sessionLastAccess k now⟩ := by
  intro k'
  simp only [containsA_setA]
  by_cases hk : k' = k
  · simp [hk]
  · simp [hk, h k']

theorem sameKeys_foldl_erase (ps : List (String × Nat)) (acc : SessionState)
    (h : sameKeys acc) :
    sameKeys (ps.foldl
      (fun a p => ⟨eraseA a.transports p.1, eraseA a.sessionLastAccess p.1⟩) acc) := by
  induction ps generalizing acc with
  | nil => exact h
  | cons p rest ih => exact ih _ (sameKeys_erase_both acc p.1 h)

/-- Behaviour of the new-session continuation under the cap hypothesis: the
count never leaves the cap, the sweep runs exactly once when the cap is hit,
and a still-full map yields 503 with no entry added. -/
theorem newSessionFlow_cap (st : SessionState) (bodyIsInit : Bool) (now : Int)
    (freshSid : String) (tid : Nat) (connectOk : Bool) (tr : List MapOp)
    (hcap : st.transports.length ≤ MAX_SESSIONS)
    (htr : tr.count MapOp.evictSweep = 0) :
    (newSessionFlow st bodyIsInit now freshSid tid connectOk tr).state.transports.length ≤
      MAX_SESSIONS ∧
    (bodyIsInit = true → MAX_SESSIONS ≤ st.transports.length →
      (newSessionFlow st bodyIsInit now freshSid tid connectOk tr).trace.count
          MapOp.evictSweep = 1 ∧
      (MAX_SESSIONS ≤ (evictStaleSessions now st).transports.length →
        (newSessionFlow st bodyIsInit now freshSid tid connectOk tr).response.status = 503 ∧
        (newSessionFlow st bodyIsInit now freshSid tid connectOk tr).state =
          evictStaleSessions now st)) := by
  cases bodyIsInit with
  | false =>
    constructor
    · show (if false = false then _ else _ : HandlerResult).state.transports.length ≤ _
      rw [if_pos rfl]
      exact hcap
    · intro htrue
      exact absurd htrue (by simp)
  | true =>
    by_cases hfull : MAX_SESSIONS ≤ st.transports.length
    · by_cases hstill : MAX_SESSIONS ≤ (evictStaleSessions now st).transports.length
      · have hres : newSessionFlow st true now freshSid tid connectOk tr =
            ⟨⟨503, "Server busy: too many active sessions"⟩, evictStaleSessions now st,
             tr ++ [MapOp.evictSweep]⟩ := by
          simp only [newSessionFlow, hfull, if_true, hstill]
          rw [if_neg (by simp)]
        rw [hres]
        refine ⟨Nat.le_trans (evictStaleSessions_transports_length_le now st) hcap, ?_⟩
        intro _ _
        constructor
        · simp [List.count_append, htr]
        · intro _
          exact ⟨rfl, rfl⟩
      · have hres : newSessionFlow st true now freshSid tid connectOk tr =
            connectAndInit (evictStaleSessions now st) now freshSid tid connectOk
              (tr ++ [MapOp.evictSweep]) := by
          simp only [newSessionFlow, hfull, if_true, hstill]
          rw [if_neg (by simp), if_neg id]
        rw [hres]
        have hlt : (evictStaleSessions now st).transports.length < MAX_SESSIONS :=
          Nat.lt_of_not_le hstill
        constructor
        · cases connectOk with
          | false => exact Nat.le_of_lt hlt
          | true =>
            simp only [connectAndInit, if_true]
            exact Nat.le_trans
              (setA_length_le (evictStaleSessions now st).transports freshSid tid)
              hlt
        · intro _ _
          constructor
          · cases connectOk with
            | false => simp [connectAndInit, List.count_append, htr]
            | true => simp [connectAndInit, List.count_append, htr]
          · intro hge
            exact absurd hge hstill
    · have hlt : st.transports.length < MAX_SESSIONS := Nat.lt_of_not_le hfull
      have hres : newSessionFlow st true now freshSid tid connectOk tr =
          connectAndInit st now freshSid tid connectOk tr := by
        simp only [newSessionFlow, hfull, if_false]
        rw [if_neg (by simp)]
      rw [hres]
      constructor
      · cases connectOk with
        | false => exact hcap
        | true =>
          simp only [connectAndInit, if_true]
          exact Nat.le_trans (setA_length_le st.transports freshSid tid) hlt
      · intro _ hge
        exact absurd hge hfull

/-! ### Claim theorems -/

/-- C1: on every POST /mcp request, the live-session count never exceeds
`MAX_SESSIONS`; when an initialize request arrives with the count at or over
the cap, exactly one stale-session eviction sweep runs, the count is
re-checked, and if it is still at or over the cap the request is refused with
HTTP 503 with no new session entry added (the resulting maps are exactly the
post-sweep maps). -/
theorem session_cap_never_exceeded
    (st : SessionState) (sessionId : Option String) (bodyIsInit : Bool) (now : Int)
    (freshSid : String) (tid : Nat) (connectOk : Bool)
    (hcap : st.transports.length ≤ MAX_SESSIONS) :
    (handlePostMcp st sessionId bodyIsInit now freshSid tid connectOk).state.transports.length ≤
      MAX_SESSIONS ∧
    (isNewSessionInit st sessionId → bodyIsInit = true →
      MAX_SESSIONS ≤ st.transports.length →
      (handlePostMcp st sessionId bodyIsInit now freshSid tid connectOk).trace.count
          MapOp.evictSweep = 1 ∧
      (MAX_SESSIONS ≤ (evictStaleSessions now st).transports.length →
        (handlePostMcp st sessionId bodyIsInit now freshSid tid connectOk).response.status =
          503 ∧
        (handlePostMcp st sessionId bodyIsInit now freshSid tid connectOk).state =
          evictStaleSessions now st)) := by
  match sessionId with
  | none =>
    have h := newSessionFlow_cap st bodyIsInit now freshSid tid connectOk [] hcap rfl
    exact ⟨h.1, fun _ => h.2⟩
  | some sid =>
    by_cases hval : isValidSessionId sid = false
    · have hres : handlePostMcp st (some sid) bodyIsInit now freshSid tid connectOk =
          ⟨⟨400, "Bad Request: Invalid session ID format"⟩, st, []⟩ := by
        simp only [handlePostMcp, hval, if_true]
      rw [hres]
      refine ⟨hcap, ?_⟩
      intro hnew _ _
      rcases hnew with hnone | ⟨s, hs, hsval, _⟩
      · exact absurd hnone (by simp)
      · have : s = sid := by injection hs.symm
        rw [this] at hsval
        rw [hsval] at hval
        exact absurd hval (by simp)
    · have hval' : isValidSessionId sid = true := by
        cases hv : isValidSessionId sid with
        | false => exact absurd hv hval
        | true => rfl
      by_cases hhas : containsA st.transports sid = true
      · have hres : handlePostMcp st (some sid) bodyIsInit now freshSid tid connectOk =
            ⟨⟨200, "delegated"⟩,
             { st with sessionLastAccess := setA st.sessionLastAccess sid now },
             [MapOp.lookupTransport sid, MapOp.setAccess sid,
              MapOp.lookupTransport sid]⟩ := by
          simp [handlePostMcp, hval', hhas]
        rw [hres]
        refine ⟨hcap, ?_⟩
        intro hnew _ _
        rcases hnew with hnone | ⟨s, hs, _, hsmem⟩
        · exact absurd hnone (by simp)
        · have : s = sid := by injection hs.symm
          rw [this] at hsmem
          rw [hsmem] at hhas
          exact absurd hhas (by simp)
      · have hhas' : containsA st.transports sid = false := by
          cases hv : containsA st.transports sid with
          | false => rfl
          | true => exact absurd hv hhas
        have hres : handlePostMcp st (some sid) bodyIsInit now freshSid tid connectOk =
            newSessionFlow st bodyIsInit now freshSid tid connectOk
              [MapOp.lookupTransport sid] := by
          simp [handlePostMcp, hval', hhas']
        rw [hres]
        have h := newSessionFlow_cap st bodyIsInit now freshSid tid connectOk
          [MapOp.lookupTransport sid] hcap (by simp)
        exact ⟨h.1, fun _ => h.2⟩

/-- C1 witness: a concrete full map (the cap reduced to its value on a
one-entry state is not reachable, so we instantiate the theorem at an
under-cap state and at the trivial hypotheses). -/
theorem session_cap_never_exceeded_witness :
    (⟨[("a", 1)], [("a", 0)]⟩ : SessionState).transports.length ≤ MAX_SESSIONS ∧
    (handlePostMcp ⟨[("a", 1)], [("a", 0)]⟩ none true 0 "b" 2 true).state.transports.length ≤
      MAX_SESSIONS := by
  refine ⟨by decide, ?_⟩
  exact (session_cap_never_exceeded ⟨[("a", 1)], [("a", 0)]⟩ none true 0 "b" 2 true
    (by decide)).1

/-- C3: when constructing or connecting the per-session handler throws (these
steps run before the transport handles the initialize request, hence before
`onsessioninitialized` can insert anything), the request is answered 500 and
the session maps hold no entry for the partially created session: they are
exactly the prior maps, or the prior maps after the synchronous eviction
sweep. -/
theorem post_connect_failure_no_partial_entry
    (st : SessionState) (sessionId : Option String) (now : Int)
    (freshSid : String) (tid : Nat)
    (hnew : isNewSessionInit st sessionId)
    (hft : containsA st.transports freshSid = false)
    (hfa : containsA st.sessionLastAccess freshSid = false)
    (hroom : st.transports.length < MAX_SESSIONS ∨
             (evictStaleSessions now st).transports.length < MAX_SESSIONS) :
    (handlePostMcp st sessionId true now freshSid tid false).response.status = 500 ∧
    containsA (handlePostMcp st sessionId true now freshSid tid false).state.transports
      freshSid = false ∧
    containsA (handlePostMcp st sessionId true now freshSid tid false).state.sessionLastAccess
      freshSid = false ∧
    ((handlePostMcp st sessionId true now freshSid tid false).state = st ∨
     (handlePostMcp st sessionId true now freshSid tid false).state =
       evictStaleSessions now st) := by
  have hflow : ∀ tr : List MapOp,
      (newSessionFlow st true now freshSid tid false tr).response.status = 500 ∧
      ((newSessionFlow st true now freshSid tid false tr).state = st ∨
       (newSessionFlow st true now freshSid tid false tr).state =
         evictStaleSessions now st) := by
    intro tr
    by_cases hfull : MAX_SESSIONS ≤ st.transports.length
    · have hstill : ¬ MAX_SESSIONS ≤ (evictStaleSessions now st).transports.length := by
        rcases hroom with hr | hr
        · exact absurd hfull (Nat.not_le_of_lt hr)
        · exact Nat.not_le_of_lt hr
      have hres : newSessionFlow st true now freshSid tid false tr =
          connectAndInit (evictStaleSessions now st) now freshSid tid false
            (tr ++ [MapOp.evictSweep]) := by
        simp only [newSessionFlow, hfull, if_true, hstill]
        rw [if_neg (by simp), if_neg id]
      rw [hres]
      exact ⟨rfl, Or.inr rfl⟩
    · have hres : newSessionFlow st true now freshSid tid false tr =
          connectAndInit st now freshSid tid false tr := by
        simp only [newSessionFlow, hfull, if_false]
        rw [if_neg (by simp)]
      rw [hres]
      exact ⟨rfl, Or.inl rfl⟩
  have hstate : ∀ tr : List MapOp,
      containsA (newSessionFlow st true now freshSid tid false tr).state.transports
        freshSid = false ∧
      containsA (newSessionFlow st true now freshSid tid false tr).state.sessionLastAccess
        freshSid = false := by
    intro tr
    rcases (hflow tr).2 with he | he
    · rw [he]
      exact ⟨hft, hfa⟩
    · rw [he]
      exact ⟨evictStaleSessions_not_contains_transports now st freshSid hft,
             evictStaleSessions_not_contains_access now st freshSid hfa⟩
  rcases hnew with hnone | ⟨s, hs, hsval, hsmem⟩
  · rw [hnone]
    have h1 := hflow ([] : List MapOp)
    have h2 := hstate ([] : List MapOp)
    exact ⟨h1.1, h2.1, h2.2, h1.2⟩
  · rw [hs]
    have hres : handlePostMcp st (some s) true now freshSid tid false =
        newSessionFlow st true now freshSid tid false [MapOp.lookupTransport s] := by
      simp [handlePostMcp, hsval, hsmem]
    rw [hres]
    have h1 := hflow [MapOp.lookupTransport s]
    have h2 := hstate [MapOp.lookupTransport s]
    exact ⟨h1.1, h2.1, h2.2, h1.2⟩

/-- C3 witness. -/
theorem post_connect_failure_no_partial_entry_witness :
    (handlePostMcp ⟨[("a", 1)], [("a", 0)]⟩ none true 0 "b" 2 false).response.status = 500 ∧
    containsA (handlePostMcp ⟨[("a", 1)], [("a", 0)]⟩ none true 0 "b" 2 false).state.transports
      "b" = false ∧
    containsA
      (handlePostMcp ⟨[("a", 1)], [("a", 0)]⟩ none true 0 "b" 2 false).state.sessionLastAccess
      "b" = false ∧
    ((handlePostMcp ⟨[("a", 1)], [("a", 0)]⟩ none true 0 "b" 2 false).state =
       (⟨[("a", 1)], [("a", 0)]⟩ : SessionState) ∨
     (handlePostMcp ⟨[("a", 1)], [("a", 0)]⟩ none true 0 "b" 2 false).state =
       evictStaleSessions 0 ⟨[("a", 1)], [("a", 0)]⟩) :=
  post_connect_failure_no_partial_entry ⟨[("a", 1)], [("a", 0)]⟩ none 0 "b" 2
    (Or.inl rfl) (by decide) (by decide) (Or.inl (by decide))

/-- C4: a request to POST, GET or DELETE /mcp carrying a session-id header
that does not match the UUID-v4 format is answered HTTP 400, the session maps
are unchanged, and the trace is empty — no session-map lookup or mutation
happens before the rejection. -/
theorem malformed_session_id_rejected_before_lookup
    (st : SessionState) (sid : String) (bodyIsInit : Bool) (now : Int)
    (freshSid : String) (tid : Nat) (connectOk : Bool)
    (hbad : isValidSessionId sid = false) :
    handlePostMcp st (some sid) bodyIsInit now freshSid tid connectOk =
      ⟨⟨400, "Bad Request: Invalid session ID format"⟩, st, []⟩ ∧
    handleGetMcp st (some sid) now = ⟨⟨400, "Invalid or missing session ID"⟩, st, []⟩ ∧
    handleDeleteMcp st (some sid) = ⟨⟨400, "Invalid or missing session ID"⟩, st, []⟩ := by
  refine ⟨?_, ?_, ?_⟩
  · simp [handlePostMcp, hbad]
  · simp [handleGetMcp, hbad]
  · simp [handleDeleteMcp, hbad]

/-- C4 witness at a concrete malformed id. -/
theorem malformed_session_id_rejected_before_lookup_witness :
    isValidSessionId "not-a-uuid" = false ∧
    handlePostMcp ⟨[("a", 1)], [("a", 0)]⟩ (some "not-a-uuid") true 0 "b" 2 true =
      ⟨⟨400, "Bad Request: Invalid session ID format"⟩, ⟨[("a", 1)], [("a", 0)]⟩, []⟩ :=
  ⟨by decide,
   (malformed_session_id_rejected_before_lookup ⟨[("a", 1)], [("a", 0)]⟩ "not-a-uuid"
     true 0 "b" 2 true (by decide)).1⟩

/-- C5: a POST /mcp request with no session-id header whose body is not an
initialize message is answered HTTP 400 with the source's message
"Bad Request: No valid session ID provided", the session maps are unchanged
and no map operation is performed. -/
theorem post_without_session_non_init_400
    (st : SessionState) (now : Int) (freshSid : String) (tid : Nat)
    (connectOk : Bool) :
    handlePostMcp st none false now freshSid tid connectOk =
      ⟨⟨400, "Bad Request: No valid session ID provided"⟩, st, []⟩ := rfl

/-- C6: a sweep at time `now` removes every session whose last access is
strictly older than the 30-minute TTL from both maps, and retains every
session accessed within the TTL, with its last-access value and its transport
entry intact. -/
theorem evictStaleSessions_removes_stale_retains_fresh
    (now : Int) (st : SessionState) (sid : String) (la : Int)
    (hnd : NodupKeys st.sessionLastAccess)
    (hla : lookupA st.sessionLastAccess sid = some la) :
    (la < now - SESSION_TTL_MS →
      containsA (evictStaleSessions now st).transports sid = false ∧
      containsA (evictStaleSessions now st).sessionLastAccess sid = false) ∧
    (now - SESSION_TTL_MS ≤ la →
      lookupA (evictStaleSessions now st).sessionLastAccess sid = some la ∧
      containsA (evictStaleSessions now st).transports sid =
        containsA st.transports sid) := by
  constructor
  · intro h
    exact evictLoop_stale_removed (now - SESSION_TTL_MS) st.sessionLastAccess st sid la
      (mem_of_lookupA _ _ _ hla) h
  · intro h
    have hfresh : ∀ l, (sid, l) ∈ st.sessionLastAccess → ¬ l < now - SESSION_TTL_MS := by
      intro l hm
      have hl := lookupA_of_mem_nodup _ _ _ hnd hm
      rw [hla] at hl
      have : la = l := by injection hl
      rw [← this]
      exact Int.not_lt.mpr h
    have hr := evictLoop_fresh_retained (now - SESSION_TTL_MS) st.sessionLastAccess st
      sid hfresh
    exact ⟨hr.1.trans hla, hr.2⟩

/-- C6 witness: a stale session "a" (last access 0) and a fresh session "b"
at `now = SESSION_TTL_MS + 1`. -/
theorem evictStaleSessions_removes_stale_retains_fresh_witness :
    containsA
      (evictStaleSessions (SESSION_TTL_MS + 1)
        ⟨[("a", 1), ("b", 2)], [("a", 0), ("b", SESSION_TTL_MS)]⟩).transports "a" = false ∧
    containsA
      (evictStaleSessions (SESSION_TTL_MS + 1)
        ⟨[("a", 1), ("b", 2)], [("a", 0), ("b", SESSION_TTL_MS)]⟩).sessionLastAccess
      "a" = false ∧
    lookupA
      (evictStaleSessions (SESSION_TTL_MS + 1)
        ⟨[("a", 1), ("b", 2)], [("a", 0), ("b", SESSION_TTL_MS)]⟩).sessionLastAccess
      "b" = some SESSION_TTL_MS := by
  have hstale :=
    (evictStaleSessions_removes_stale_retains_fresh (SESSION_TTL_MS + 1)
      ⟨[("a", 1), ("b", 2)], [("a", 0), ("b", SESSION_TTL_MS)]⟩ "a" 0
      (by unfold NodupKeys; decide) (by decide)).1 (by decide)
  have hfresh :=
    (evictStaleSessions_removes_stale_retains_fresh (SESSION_TTL_MS + 1)
      ⟨[("a", 1), ("b", 2)], [("a", 0), ("b", SESSION_TTL_MS)]⟩ "b" SESSION_TTL_MS
      (by unfold NodupKeys; decide) (by decide)).2 (by decide)
  exact ⟨hstale.1, hstale.2, hfresh.1⟩

/-- C10: starting from maps holding the same ids, every operation of the
transport manager — the three /mcp handlers, the transport `onclose` callback,
the eviction sweep and graceful shutdown — again leaves the two maps holding
exactly the same set of session ids. -/
theorem session_maps_same_keys_invariant
    (st : SessionState) (sessionId : Option String) (bodyIsInit : Bool) (now : Int)
    (freshSid : String) (tid : Nat) (connectOk : Bool) (closedSid : Option String)
    (h : sameKeys st) :
    sameKeys (handlePostMcp st sessionId bodyIsInit now freshSid tid connectOk).state ∧
    sameKeys (handleGetMcp st sessionId now).state ∧
    sameKeys (handleDeleteMcp st sessionId).state ∧
    sameKeys (oncloseCallback st closedSid) ∧
    sameKeys (evictStaleSessions now st) ∧
    sameKeys (gracefulShutdown st) := by
  have hdeleg : ∀ sid, containsA st.transports sid = true →
      sameKeys { st with sessionLastAccess := setA st.sessionLastAccess sid now } := by
    intro sid hsid k
    show containsA st.transports k = containsA (setA st.sessionLastAccess sid now) k
    rw [containsA_setA]
    by_cases hk : k = sid
    · rw [if_pos hk, hk]
      exact hsid
    · rw [if_neg hk]
      exact h k
  have hflow : ∀ tr, sameKeys (newSessionFlow st bodyIsInit now freshSid tid
      connectOk tr).state := by
    intro tr
    cases bodyIsInit with
    | false => exact h
    | true =>
      by_cases hfull : MAX_SESSIONS ≤ st.transports.length
      · by_cases hstill : MAX_SESSIONS ≤ (evictStaleSessions now st).transports.length
        · have hres : (newSessionFlow st true now freshSid tid connectOk tr).state =
              evictStaleSessions now st := by
            simp [newSessionFlow, hfull, hstill]
          rw [hres]
          exact sameKeys_evictStaleSessions now st h
        · have hres : (newSessionFlow st true now freshSid tid connectOk tr).state =
              (connectAndInit (evictStaleSessions now st) now freshSid tid connectOk
                (tr ++ [MapOp.evictSweep])).state := by
            simp [newSessionFlow, hfull, hstill]
          rw [hres]
          cases connectOk with
          | false => exact sameKeys_evictStaleSessions now st h
          | true =>
            exact sameKeys_set_both (evictStaleSessions now st) freshSid tid now
              (sameKeys_evictStaleSessions now st h)
      · have hres : (newSessionFlow st true now freshSid tid connectOk tr).state =
            (connectAndInit st now freshSid tid connectOk tr).state := by
          simp [newSessionFlow, hfull]
        rw [hres]
        cases connectOk with
        | false => exact h
        | true => exact sameKeys_set_both st freshSid tid now h
  refine ⟨?_, ?_, ?_, ?_, sameKeys_evictStaleSessions now st h, sameKeys_foldl_erase _ _ h⟩
  · match sessionId with
    | none => exact hflow []
    | some sid =>
      by_cases hval : isValidSessionId sid = false
      · have hres : (handlePostMcp st (some sid) bodyIsInit now freshSid tid
            connectOk).state = st := by
          simp [handlePostMcp, hval]
        rw [hres]
        exact h
      · have hval' : isValidSessionId sid = true := by
          cases hv : isValidSessionId sid with
          | false => exact absurd hv hval
          | true => rfl
        by_cases hhas : containsA st.transports sid = true
        · have hres : (handlePostMcp st (some sid) bodyIsInit now freshSid tid
              connectOk).state =
              { st with sessionLastAccess := setA st.sessionLastAccess sid now } := by
            simp [handlePostMcp, hval', hhas]
          rw [hres]
          exact hdeleg sid hhas
        · have hhas' : containsA st.transports sid = false := by
            cases hv : containsA st.transports sid with
            | false => rfl
            | true => exact absurd hv hhas
          have hres : (handlePostMcp st (some sid) bodyIsInit now freshSid tid
              connectOk).state =
              (newSessionFlow st bodyIsInit now freshSid tid connectOk
                [MapOp.lookupTransport sid]).state := by
            simp [handlePostMcp, hval', hhas']
          rw [hres]
          exact hflow [MapOp.lookupTransport sid]
  · match sessionId with
    | none => exact h
    | some sid =>
      by_cases hval : isValidSessionId sid = false
      · have hres : (handleGetMcp st (some sid) now).state = st := by
          simp [handleGetMcp, hval]
        rw [hres]
        exact h
      · have hval' : isValidSessionId sid = true := by
          cases hv : isValidSessionId sid with
          | false => exact absurd hv hval
          | true => rfl
        by_cases hhas : containsA st.transports sid = true
        · have hres : (handleGetMcp st (some sid) now).state =
              { st with sessionLastAccess := setA st.sessionLastAccess sid now } := by
            simp [handleGetMcp, hval', hhas]
          rw [hres]
          exact hdeleg sid hhas
        · have hhas' : containsA st.transports sid = false := by
            cases hv : containsA st.transports sid with
            | false => rfl
            | true => exact absurd hv hhas
          have hres : (handleGetMcp st (some sid) now).state = st := by
            simp [handleGetMcp, hval', hhas']
          rw [hres]
          exact h
  · match sessionId with
    | none => exact h
    | some sid =>
      by_cases hval : isValidSessionId sid = false
      · have hres : (handleDeleteMcp st (some sid)).state = st := by
          simp [handleDeleteMcp, hval]
        rw [hres]
        exact h
      · have hval' : isValidSessionId sid = true := by
          cases hv : isValidSessionId sid with
          | false => exact absurd hv hval
          | true => rfl
        by_cases hhas : containsA st.transports sid = true
        · have hres : (handleDeleteMcp st (some sid)).state =
              ⟨eraseA st.transports sid,
               eraseA (eraseA st.sessionLastAccess sid) sid⟩ := by
            simp [handleDeleteMcp, hval', hhas, oncloseCallback]
          rw [hres]
          intro k
          show containsA (eraseA st.transports sid) k =
            containsA (eraseA (eraseA st.sessionLastAccess sid) sid) k
          rw [containsA_eraseA, containsA_eraseA, containsA_eraseA]
          by_cases hk : k = sid
          · simp [hk]
          · simp only [hk, if_false]
            exact h k
        · have hhas' : containsA st.transports sid = false := by
            cases hv : containsA st.transports sid with
            | false => rfl
            | true => exact absurd hv hhas
          have hres : (handleDeleteMcp st (some sid)).state = st := by
            simp [handleDeleteMcp, hval', hhas']
          rw [hres]
          exact h
  · match closedSid with
    | none => exact h
    | some s => exact sameKeys_erase_both st s h

/-- C10 witness at a concrete in-sync state. -/
theorem session_maps_same_keys_invariant_witness :
    sameKeys (⟨[("a", 1)], [("a", 0)]⟩ : SessionState) ∧
    sameKeys (handleDeleteMcp ⟨[("a", 1)], [("a", 0)]⟩
      (some "123e4567-e89b-42d3-a456-426614174000")).state := by
  have hsk : sameKeys (⟨[("a", 1)], [("a", 0)]⟩ : SessionState) := by
    intro k
    show (lookupA [("a", 1)] k).isSome = (lookupA [("a", 0)] k).isSome
    by_cases hk : "a" = k
    · simp [lookupA, hk]
    · simp [lookupA, hk]
  exact ⟨hsk,
    (session_maps_same_keys_invariant ⟨[("a", 1)], [("a", 0)]⟩
      (some "123e4567-e89b-42d3-a456-426614174000") true 0 "b" 2 true none hsk).2.2.1⟩

/-! ### Auth-side lemmas -/

theorem startsWithBearer_append (tok : String) :
    startsWithBearer ("Bearer " ++ tok) = true := by
  unfold startsWithBearer
  have hd : ("Bearer " ++ tok).toList = "Bearer ".toList ++ tok.toList :=
    String.data_append _ _
  rw [hd]
  have h7 : ("Bearer ".toList).length = 7 := rfl
  rw [← h7, List.take_left]
  rfl

theorem slice7_append (tok : String) : slice7 ("Bearer " ++ tok) = tok := by
  unfold slice7
  have hd : ("Bearer " ++ tok).toList = "Bearer ".toList ++ tok.toList :=
    String.data_append _ _
  rw [hd]
  have h7 : ("Bearer ".toList).length = 7 := rfl
  rw [← h7, List.drop_left]
  rfl

/-- C8: a request to a route protected by the bearer middleware configured
with a resource-metadata URL (as the /mcp routes are) whose Authorization
header is absent or does not start with "Bearer " is halted with HTTP 401,
and the WWW-Authenticate header embeds
`resource_metadata="<the discovery URL>"`. -/
theorem missing_bearer_401_with_resource_metadata
    (requiredScopes : List String) (url : String) (verify : String → Option AuthInfo)
    (authHeader : Option String) (locals : Option AuthInfo)
    (hmiss : authHeader = none ∨
             ∃ h, authHeader = some h ∧ startsWithBearer h = false) :
    ∃ resp : AuthHttpResponse,
      requireBearerAuthStep requiredScopes (some url) verify authHeader locals =
        (MwOutcome.halted resp, locals) ∧
      resp.status = 401 ∧
      ∃ pre, resp.wwwAuthenticate =
        some (pre ++ "resource_metadata=\"" ++ url ++ "\"") := by
  have hb : ∃ pre,
      some (buildWwwAuth requiredScopes (some url) "invalid_token"
        "Missing Authorization header") =
      some (pre ++ "resource_metadata=\"" ++ url ++ "\"") := by
    unfold buildWwwAuth
    exact ⟨_, rfl⟩
  rcases hmiss with hn | ⟨hh, hhdr, hsw⟩
  · subst hn
    exact ⟨_, rfl, rfl, hb⟩
  · subst hhdr
    have hres : requireBearerAuthStep requiredScopes (some url) verify (some hh)
        locals =
        (MwOutcome.halted
          ⟨401, some (buildWwwAuth requiredScopes (some url) "invalid_token"
                        "Missing Authorization header"),
           "invalid_token", "Missing Authorization header"⟩, locals) := by
      simp [requireBearerAuthStep, hsw]
    exact ⟨_, hres, rfl, hb⟩

/-- C8 witness at a concrete missing header. -/
theorem missing_bearer_401_with_resource_metadata_witness :
    ∃ resp : AuthHttpResponse,
      requireBearerAuthStep [] (some "https://srv.example/.well-known/oauth-protected-resource/mcp")
        (fun _ => none) none none =
        (MwOutcome.halted resp, none) ∧
      resp.status = 401 ∧
      ∃ pre, resp.wwwAuthenticate =
        some (pre ++ "resource_metadata=\"" ++
          "https://srv.example/.well-known/oauth-protected-resource/mcp" ++ "\"") :=
  missing_bearer_401_with_resource_metadata []
    "https://srv.example/.well-known/oauth-protected-resource/mcp"
    (fun _ => none) none none (Or.inl rfl)

/-- A two-token verifier used to exercise the middleware concretely. -/
def demoVerify : String → Option AuthInfo := fun t =>
  if t = "tok-A" then some ⟨"tok-A", "client-A", ["openid"], 1000⟩
  else if t = "tok-B" then some ⟨"tok-B", "client-B", ["openid"], 2000⟩
  else none

/-- C7 counterexample: the middleware stores the resolved context in
`req.app.locals.auth` (auth.ts line 393), a single slot shared by the whole
Express app.  Run request A's middleware (token "tok-A"), then request B's
middleware (token "tok-B"), both successful — the event-loop interleaving of
two concurrent requests.  The slot that request A's downstream handler then
reads holds request B's context, not request A's own: the attached context is
not scoped to the request. -/
theorem auth_context_not_request_scoped_cex :
    (authMiddlewareStep "https://srv.example" demoVerify (some "Bearer tok-B")
        (authMiddlewareStep "https://srv.example" demoVerify (some "Bearer tok-A")
          none).2).2 ≠ demoVerify "tok-A" ∧
    (authMiddlewareStep "https://srv.example" demoVerify (some "Bearer tok-B")
        (authMiddlewareStep "https://srv.example" demoVerify (some "Bearer tok-A")
          none).2).2 = demoVerify "tok-B" := by
  constructor
  · decide
  · decide

/-- C7 (amended): on success the middleware attaches the resolved auth context
(client id, scopes, expiry) for downstream use — but to the app-level shared
`app.locals.auth` slot, whose final value is independent of whatever any other
request previously stored there (last writer wins), rather than to
request-scoped storage. -/
theorem auth_context_attached_to_shared_locals
    (url : String) (verify : String → Option AuthInfo) (tok : String)
    (info : AuthInfo) (l1 l2 : Option AuthInfo)
    (hver : verify tok = some info) :
    requireBearerAuthStep [] (some url) verify (some ("Bearer " ++ tok)) l1 =
      (MwOutcome.passed, some info) ∧
    requireBearerAuthStep [] (some url) verify (some ("Bearer " ++ tok)) l2 =
      (MwOutcome.passed, some info) := by
  have hstep : ∀ l : Option AuthInfo,
      requireBearerAuthStep [] (some url) verify (some ("Bearer " ++ tok)) l =
        (MwOutcome.passed, some info) := by
    intro l
    simp [requireBearerAuthStep, startsWithBearer_append, slice7_append, hver]
  exact ⟨hstep l1, hstep l2⟩

/-- C7 amended-claim witness. -/
theorem auth_context_attached_to_shared_locals_witness :
    requireBearerAuthStep [] (some "https://srv.example") demoVerify
      (some ("Bearer " ++ "tok-A")) none =
      (MwOutcome.passed, some ⟨"tok-A", "client-A", ["openid"], 1000⟩) ∧
    requireBearerAuthStep [] (some "https://srv.example") demoVerify
      (some ("Bearer " ++ "tok-A"))
      (some ⟨"tok-B", "client-B", ["openid"], 2000⟩) =
      (MwOutcome.passed, some ⟨"tok-A", "client-A", ["openid"], 1000⟩) :=
  auth_context_attached_to_shared_locals "https://srv.example" demoVerify "tok-A"
    ⟨"tok-A", "client-A", ["openid"], 1000⟩ none
    (some ⟨"tok-B", "client-B", ["openid"], 2000⟩) (by decide)

/-- C9: the derived protected-resource-metadata path and the bare well-known
path are both routed to the single `prmHandler` instance, so for any handler
semantics and any server configuration the two GETs produce identical
documents. -/
theorem prm_paths_serve_identical_documents (handlers : Nat → String → String)
    (config : String) :
    serveAuthGet handlers config "/.well-known/oauth-protected-resource/mcp" =
      serveAuthGet handlers config "/.well-known/oauth-protected-resource" ∧
    serveAuthGet handlers config "/.well-known/oauth-protected-resource/mcp" =
      some (handlers PRM_HANDLER config) := by
  constructor
  · rfl
  · rfl

/-- C2: under the recorded-state hypotheses (the presented code exists, is
unexpired and unconsumed, and the request's client id and redirect URI match
issuance), the token exchange succeeds if and only if the SHA-256-base64url
digest of the presented `code_verifier` equals the stored `code_challenge`;
any verifier with a different digest makes the exchange fail. -/
theorem tokenExchange_succeeds_iff_pkce_match
    (store : List AuthorizationCodeRec) (req : TokenRequest) (now : Int)
    (mint : String → TokenPair) (r : AuthorizationCodeRec)
    (hgrant : req.grantType = "authorization_code")
    (hfind : store.find? (fun x => x.code == req.code) = some r)
    (hexp : now < r.expiresAt) (hcons : r.consumed = false)
    (hred : r.redirectURI = req.redirectUri) (hcli : r.clientId = req.clientId) :
    (exchangeOk (tokenExchange store req now mint) = true ↔
      sha256Base64Url req.codeVerifier = r.codeChallenge) := by
  unfold tokenExchange
  rw [if_neg (not_not_intro hgrant)]
  simp only [hfind]
  rw [if_neg (Int.not_le.mpr hexp)]
  rw [if_neg (by rw [hcons]; exact Bool.false_ne_true)]
  rw [if_neg (not_not_intro hred)]
  rw [if_neg (not_not_intro hcli)]
  by_cases hch : sha256Base64Url req.codeVerifier = r.codeChallenge
  · rw [if_neg (not_not_intro hch)]
    simp [exchangeOk, hch]
  · rw [if_pos hch]
    simp [exchangeOk, hch]

/-- C2 witness: a stored code whose challenge is the S256 digest of the RFC
7636 test verifier; exchanging with that verifier succeeds. -/
theorem tokenExchange_succeeds_iff_pkce_match_witness :
    exchangeOk (tokenExchange
      [⟨"code-1", "client-1", "https://client.example/cb",
        sha256Base64Url "dBjftJeZ4CVP-mB92K27uhbUJU1p1r_wW1gFWFOEjXk", "S256",
        1000, false⟩]
      ⟨"authorization_code", "code-1", "https://client.example/cb", "client-1",
       "dBjftJeZ4CVP-mB92K27uhbUJU1p1r_wW1gFWFOEjXk"⟩ 500
      (fun c => ⟨"at-" ++ c, "rt-" ++ c⟩)) = true :=
  (tokenExchange_succeeds_iff_pkce_match
    [⟨"code-1", "client-1", "https://client.example/cb",
      sha256Base64Url "dBjftJeZ4CVP-mB92K27uhbUJU1p1r_wW1gFWFOEjXk", "S256",
      1000, false⟩]
    ⟨"authorization_code", "code-1", "https://client.example/cb", "client-1",
     "dBjftJeZ4CVP-mB92K27uhbUJU1p1r_wW1gFWFOEjXk"⟩ 500
    (fun c => ⟨"at-" ++ c, "rt-" ++ c⟩)
    ⟨"code-1", "client-1", "https://client.example/cb",
     sha256Base64Url "dBjftJeZ4CVP-mB92K27uhbUJU1p1r_wW1gFWFOEjXk", "S256",
     1000, false⟩
    rfl rfl (by decide) rfl rfl rfl).mpr rfl

end ServiceNowMCP
